import Mathlib

/-!
Verification development for the log4go logging library.

The Go sources are shallowly embedded: pure functions become Lean
functions, the stateful sinks become explicit state passing, and the
concurrent close protocol of a Filter becomes a labelled small-step
transition system over an explicit state record.  Go `int` is modelled
as `Int` (no claim exercises 64-bit overflow), Go strings and byte
slices as `List Char`, and a Go panic / run-time failure as `Option`
(`none` = panic).  Go time values (`time.Time`) are modelled as plain
`Nat` stamps: no claim inspects the clock.
-/

namespace Log4go

/-! Section: Levels (log4go.go lines 36-60) -/

/-- Severity constant DEBUG, from `type Level int`, `DEBUG Level = iota`. -/
def DEBUG : Int := 0

/-- Severity constant TRACE (iota = 1). -/
def TRACE : Int := 1

/-- Severity constant INFO (iota = 2). -/
def INFO : Int := 2

/-- Severity constant WARNING (iota = 3). -/
def WARNING : Int := 3

/-- Severity constant ERROR (iota = 4). -/
def ERROR : Int := 4

/-- Severity constant CRITICAL (iota = 5). -/
def CRITICAL : Int := 5

/-- Source: `levelStrings = [...]string{"DEBG", "TRAC", "INFO", "WARN",
"EROR", "CRIT"}` (log4go.go line 52). -/
def levelStrings : List String := ["DEBG", "TRAC", "INFO", "WARN", "EROR", "CRIT"]

/-- Source: `func (l Level) String() string` (log4go.go lines 55-60):

    if l < 0 || int(l) > len(levelStrings) { return "UNKNOWN" }
    return levelStrings[int(l)]

The guard lets `l = len(levelStrings) = 6` through to the index
expression; a Go out-of-range index panics, which we model as `none`
(`List.get?` out of range).  Every in-guard value returns `some`. -/
def Level.string (l : Int) : Option String :=
  if l < 0 ∨ (levelStrings.length : Int) < l then some "UNKNOWN"
  else levelStrings.get? l.toNat

/-! Section: number parsing with K/M/G suffixes (config.go lines 250-268) -/

/-- Decimal value of a big-endian digit string, as `strconv.Atoi` computes it
for an all-digit input. -/
def decDigitsVal (s : List Char) : Nat :=
  s.foldl (fun a c => 10 * a + (c.toNat - 48)) 0

/-- True iff `s` is a nonempty run of ASCII digits. -/
def isDigitStr (s : List Char) : Bool :=
  !s.isEmpty && s.all Char.isDigit

/-- Model of Go `strconv.Atoi` as used by `strToNumSuffix` (config.go line 266):
an optional sign followed by decimal digits; any other input yields an error,
which the caller discards, leaving the zero result.  (`strconv.Atoi`'s
clamping of out-of-64-bit-range values is not modelled; no claim involves
such inputs.) -/
def goAtoi (s : List Char) : Int :=
  if s.head? = some '-' then
    (if isDigitStr s.tail then -(decDigitsVal s.tail : Int) else 0)
  else if s.head? = some '+' then
    (if isDigitStr s.tail then (decDigitsVal s.tail : Int) else 0)
  else if isDigitStr s then (decDigitsVal s : Int) else 0

/-- The suffix analysis of `strToNumSuffix` (config.go lines 252-265): when the
string has length > 1 its last byte is switched on; `'G'` multiplies `num` by
`mult` and falls through `'M'` and `'K'`, `'M'` falls through `'K'`, and the
`'K'` arm both multiplies and strips the suffix byte (the strip is shared by
all three arms via fallthrough).  Returns the string to hand to `Atoi` and the
accumulated multiplier `num`. -/
def strToNumSplit (str : List Char) (mult : Int) : List Char × Int :=
  if 1 < str.length then
    if str.getLast? = some 'G' ∨ str.getLast? = some 'g' then
      (str.dropLast, mult * mult * mult)
    else if str.getLast? = some 'M' ∨ str.getLast? = some 'm' then
      (str.dropLast, mult * mult)
    else if str.getLast? = some 'K' ∨ str.getLast? = some 'k' then
      (str.dropLast, mult)
    else (str, 1)
  else (str, 1)

/-- Source: `func strToNumSuffix(str string, mult int) int` (config.go lines
251-268): `parsed, _ := strconv.Atoi(str); return parsed * num`. -/
def strToNumSuffix (str : List Char) (mult : Int) : Int :=
  goAtoi (strToNumSplit str mult).1 * (strToNumSplit str mult).2

/-- Character class stripped by `strings.Trim(v, " \r\n")` in config.go. -/
def trimCut (c : Char) : Bool :=
  c = ' ' ∨ c = '\r' ∨ c = '\n'

/-- Model of `strings.Trim(s, " \r\n")`: drop the cut set from both ends. -/
def goTrim (s : List Char) : List Char :=
  ((s.dropWhile trimCut).reverse.dropWhile trimCut).reverse

/-- The bufsize accumulation of `propToFileLogWriter` (config.go lines
190-209) restricted to the one property that feeds `SetBufSize`: `bufsize`
starts at 0 and each property named "bufsize" replaces it with
`strToNumSuffix(strings.Trim(value, " \r\n"), 1024)`; the other property
names update unrelated fields and leave `bufsize` alone. -/
def bufsizeOfProps (props : List (String × List Char)) : Int :=
  props.foldl
    (fun acc p => if p.1 = "bufsize" then strToNumSuffix (goTrim p.2) 1024 else acc) 0

/-! Section: the file sink (src/unnamed/part_000 lines 22-152) -/

/-- Source: `BUFFERSIZE = 4 * 1024 * 1024` (part_000 line 34). -/
def BUFFERSIZE : Int := 4 * 1024 * 1024

/-- Source: `type FileLogWriter struct` (part_000 lines 37-45).  The byte
buffer `iow *bytes.Buffer` is `Option (List Char)` with `none` for the nil
pointer; the `sync.WaitGroup` of in-flight background writers leaves no
residue in this sequential model (see `FileLogWriter.LogWrite`). -/
structure FileLogWriter where
  filename : List Char
  path : List Char
  bufsize : Int
  iow : Option (List Char)
  format : List Char
  compress : Bool
deriving DecidableEq

/-- Source: `func NewFileLogWriter(fname string) *FileLogWriter` (part_000
lines 48-58). -/
def NewFileLogWriter (fname : List Char) : FileLogWriter :=
  { filename := fname
    path := []
    bufsize := BUFFERSIZE
    iow := none
    format := "[%T %D %Z] [%L] (%S) %M".data
    compress := false }

/-- Source: `func (c *FileLogWriter) SetBufSize(bufsize int)` (part_000 lines
65-72): zero selects the default `BUFFERSIZE`, anything else is installed
verbatim. -/
def FileLogWriter.SetBufSize (c : FileLogWriter) (bufsize : Int) : FileLogWriter :=
  if bufsize = 0 then { c with bufsize := BUFFERSIZE } else { c with bufsize := bufsize }

/-- A file sink together with the files it has written: `files` lists the
contents of the rotated/flushed files in the order their writes were issued.
File names (`MakeFileName`, wall-clock based) are not modelled; each write
goes to a fresh name, so content order is all that matters. -/
structure FileSinkState where
  w : FileLogWriter
  files : List (List Char)
deriving DecidableEq

/-- Source: `func (c *FileLogWriter) Close()` (part_000 lines 84-106): wait
for in-flight writers (immediate here — the sequential model applies
background writes at spawn time), return if the buffer is nil or empty,
otherwise swap in a fresh buffer and write the old one out
(`tmp.WriteTo(fd); fd.Sync()`).  The open-error early return and the trailing
200 ms sleep are not modelled (I/O is assumed to succeed; sleeps change no
state). -/
def FileLogWriter.Close (s : FileSinkState) : FileSinkState :=
  match s.w.iow with
  | none => s
  | some b =>
    if b.length = 0 then s
    else { w := { s.w with iow := some [] }, files := s.files ++ [b] }

/-- Source: `func (c *FileLogWriter) Flush()` (part_000 lines 108-110), which
just calls `c.Close()`. -/
def FileLogWriter.Flush (s : FileSinkState) : FileSinkState :=
  FileLogWriter.Close s

/-- Source: `func (c *FileLogWriter) LogWrite(rec *LogRecord)` (part_000
lines 126-152).  The rendered text `FormatLogRecord(c.format, rec)` is taken
as the input (the formatter is a pure string function living outside this
file's scope).  Lines 128-131: allocate the buffer if nil and append.
Line 133: if `c.iow.Len() > c.bufsize`, swap the whole buffer for a fresh
empty one and spawn a background writer for the swapped-out segment (lines
134-150); the sequential model records that write immediately. -/
def FileLogWriter.LogWrite (s : FileSinkState) (text : List Char) : FileSinkState :=
  let buf := (match s.w.iow with | none => [] | some b => b) ++ text
  if s.w.bufsize < (buf.length : Int) then
    { w := { s.w with iow := some [] }, files := s.files ++ [buf] }
  else
    { w := { s.w with iow := some buf }, files := s.files }

/-- Iterated `LogWrite` over a sequence of rendered records. -/
def writeAll (s : FileSinkState) (ts : List (List Char)) : FileSinkState :=
  ts.foldl FileLogWriter.LogWrite s

/-- Concatenation of a list of text chunks (total appended bytes). -/
def concatAll (ls : List (List Char)) : List Char :=
  ls.foldr (fun a b => a ++ b) []

/-! Section: records, filters and the Logger (log4go.go lines 72-310) -/

/-- Source: `type LogRecord struct` (log4go.go lines 72-77).  The field
`Created time.Time` is a plain `Nat` stamp; `Level` is the Go `Level`
(an int). -/
structure LogRecord where
  Level : Int
  Created : Nat
  Source : List Char
  Message : List Char
deriving DecidableEq

/-- Source: `type Filter struct` (log4go.go lines 96-103): threshold `Level`,
the buffered write channel `rec chan *LogRecord` (its queued contents, FIFO,
head = oldest; the source field name `rec` is taken by Lean's recursor, hence
`recChan`), and the `closing` flag.  The embedded `LogWriter` is kept outside
this structure (the dispatch-level claims never touch the sink state). -/
structure Filter where
  Level : Int
  recChan : List LogRecord
  closing : Bool
deriving DecidableEq

/-- Source: `func (f *Filter) WriteToChan(rec *LogRecord)` (log4go.go lines
118-124): return silently when `closing`, otherwise enqueue.  (Blocking of a
send on a full channel affects timing only, not the enqueued sequence.) -/
def Filter.WriteToChan (f : Filter) (r : LogRecord) : Filter :=
  if f.closing then f else { f with recChan := f.recChan ++ [r] }

/-- The per-gate body of `Logger.dispatch`'s loop (log4go.go lines 238-243):
`if rec.Level < filt.Level { continue }; filt.WriteToChan(rec)`. -/
def dispatchFilter (f : Filter) (r : LogRecord) : Filter :=
  if r.Level < f.Level then f else Filter.WriteToChan f r

/-- Source: `type Logger map[string]*Filter` (log4go.go line 185), as the
list of its (name, filter) entries; iteration order is irrelevant to every
claim. -/
abbrev Logger : Type := List (String × Filter)

/-- Source: `func (log Logger) dispatch(rec *LogRecord)` (log4go.go lines
237-244): apply the loop body to every registered gate. -/
def Logger.dispatch (log : Logger) (r : LogRecord) : Logger :=
  List.map (fun kv => (kv.1, dispatchFilter kv.2 r)) log

/-- Source: `func (log Logger) skip(lvl Level) bool` (log4go.go lines
227-234): true iff no gate has `lvl >= filt.Level`. -/
def Logger.skip (log : Logger) (lvl : Int) : Bool :=
  List.all log (fun kv => decide (lvl < kv.2.Level))

/-- Source: `func (log Logger) intLogf(lvl Level, format string, args ...)`
(log4go.go lines 247-273): skip check, then build the record and dispatch
it.  The caller source from `runtime.Caller` is the `src` argument,
`time.Now()` is `now`, and `msg` is the already-formatted text
(`fmt.Sprintf` is a pure library call; with no varargs the format string is
used verbatim, which is the only way the claims reach it). -/
def Logger.intLogf (log : Logger) (lvl : Int) (now : Nat) (src msg : List Char) : Logger :=
  if Logger.skip log lvl then log
  else Logger.dispatch log { Level := lvl, Created := now, Source := src, Message := msg }

/-- Message fragment `"Err: "` (log4go.go line 300). -/
def errPre : List Char := "Err: ".data

/-- Message fragment `" - "` (log4go.go line 300). -/
def errSep : List Char := " - ".data

/-- Source: `func (log Logger) Json(data []byte)` (log4go.go lines 293-310).
The library call `json.Unmarshal` is the `decode` parameter (an external
collaborator); on error the code builds
`msg := "Err: " + err.Error() + " - " + string(data)` and calls
`log.intLogf(WARNING, msg)`; on success it applies the same skip/dispatch
rule at the decoded severity. -/
def Logger.Json (decode : List Char → Except (List Char) LogRecord)
    (log : Logger) (now : Nat) (src data : List Char) : Logger :=
  match decode data with
  | .error e => Logger.intLogf log WARNING now src (errPre ++ e ++ errSep ++ data)
  | .ok rec => if Logger.skip log rec.Level then log else Logger.dispatch log rec

/-- Source: `func (log Logger) warn(arg0 string, args ...) error` (log4go.go
lines 327-332): `msg := fmt.Sprintf(arg0, args...)`; emit at WARNING; return
`errors.New(msg)` (modelled as `some msg`; `none` would be a nil error,
which `errors.New` never returns). -/
def Logger.warn (log : Logger) (now : Nat) (src msg : List Char) :
    Logger × Option (List Char) :=
  (Logger.intLogf log WARNING now src msg, some msg)

/-- Source: `func (log Logger) error(arg0 string, args ...) error` (log4go.go
lines 334-339). -/
def Logger.error (log : Logger) (now : Nat) (src msg : List Char) :
    Logger × Option (List Char) :=
  (Logger.intLogf log ERROR now src msg, some msg)

/-- Source: `func (log Logger) critical(arg0 string, args ...) error`
(log4go.go lines 341-346). -/
def Logger.critical (log : Logger) (now : Nat) (src msg : List Char) :
    Logger × Option (List Char) :=
  (Logger.intLogf log CRITICAL now src msg, some msg)

/-- Source: `func (f *Filter) Flush()` (log4go.go lines 167-181) acting on a
gate whose sink is a file writer: when `closing`, return at once; otherwise
the poll loop only sleeps (no state change) and the call delegates to
`f.LogWriter.Flush()` = `FileLogWriter.Flush`. -/
def Filter.Flush (f : Filter) (s : FileSinkState) : Filter × FileSinkState :=
  if f.closing then (f, s) else (f, FileLogWriter.Flush s)

/-! Section: the Filter close protocol as a transition system
(log4go.go lines 105-165)

`NewFilter` starts one consumer goroutine `run` (lines 126-136) that
receives from the channel and calls `LogWrite` until the channel is closed
and empty.  `Close` (lines 138-165) polls the channel length, sets
`closing`, defers the sink's `Close`, closes the channel, and, when records
remain, drains them with its own `LogWrite` loop — concurrently with the
still-running consumer.  The interleaving of these two goroutines is made
explicit: a state, a set of atomic actions (one per source step that touches
shared state), and a step function returning `Option`.  Records are identified by
`Nat` tags; `Ev` is the observable history at the sink. -/

/-- Observable sink events: `f.LogWrite(rec)` calls and the single deferred
`f.LogWriter.Close()`. -/
inductive Ev where
  | write (r : Nat)
  | closeSink
deriving DecidableEq

/-- Program counter of the goroutine executing `Filter.Close`:
`poll` = the length-poll loop (lines 144-149), `setClosing` = line 152,
`closeChan` = line 156, `lenCheck` = line 158, `drain` = the
`for rec := range f.rec` loop (lines 162-164), `final` = about to run the
deferred `f.LogWriter.Close()` (line 154), `done` = returned. -/
inductive CloserPC where
  | poll
  | setClosing
  | closeChan
  | lenCheck
  | drain
  | final
  | done
deriving DecidableEq

/-- Joint state of the channel, the consumer goroutine (`run`) and the
closing goroutine.  `consHeld`/`closerHeld` is a record received from the
channel whose `LogWrite` call has not happened yet (receiving and writing
are distinct steps in the source). -/
structure CState where
  chan : List Nat
  chanClosed : Bool
  closing : Bool
  consHeld : Option Nat
  consDone : Bool
  pc : CloserPC
  closerHeld : Option Nat
  events : List Ev
deriving DecidableEq

/-- The atomic actions of the two goroutines. -/
inductive Act where
  | consPop
  | consStop
  | consWrite
  | pollExit
  | setClosing
  | closeChan
  | lenCheck
  | drainPop
  | drainWrite
  | drainExit
  | sinkClose
deriving DecidableEq

/-- One interleaved step; `none` when the action is not enabled.

* `consPop`: the `case rec, ok := <-f.rec` of `run` receives a buffered
  record (possible whether or not the channel is closed, Go semantics).
* `consStop`: the receive on a closed, empty channel returns `ok = false`
  and `run` returns (line 131).
* `consWrite`: `run` performs `f.LogWrite(rec)` on the held record
  (line 133).
* `pollExit`: the poll loop of `Close` exits — early on an empty channel or
  after the bounded 1 s wait with records still queued (lines 144-149; the
  sleeps select an interleaving, they change no state).
* `setClosing`: `f.closing = true` (line 152).
* `closeChan`: `close(f.rec)` (line 156).
* `lenCheck`: `if len(f.rec) <= 0 { return }` (line 158) — on an empty
  channel `Close` returns to the deferred sink close, otherwise it enters
  the drain loop.
* `drainPop` and `drainWrite`: the drain loop receives a remaining record
  and calls `f.LogWrite(rec)` (lines 162-164).
* `drainExit`: the range loop ends on the closed, empty channel.
* `sinkClose`: the deferred `f.LogWriter.Close()` (line 154) runs and
  `Close` returns. -/
def step (s : CState) : Act → Option CState
  | .consPop =>
    match s.consDone, s.consHeld, s.chan with
    | false, none, r :: rest => some { s with chan := rest, consHeld := some r }
    | _, _, _ => none
  | .consStop =>
    if s.consDone = false ∧ s.consHeld = none ∧ s.chan = [] ∧ s.chanClosed = true then
      some { s with consDone := true }
    else none
  | .consWrite =>
    match s.consDone, s.consHeld with
    | false, some r => some { s with consHeld := none, events := s.events ++ [Ev.write r] }
    | _, _ => none
  | .pollExit =>
    if s.pc = CloserPC.poll then some { s with pc := CloserPC.setClosing } else none
  | .setClosing =>
    if s.pc = CloserPC.setClosing then
      some { s with closing := true, pc := CloserPC.closeChan }
    else none
  | .closeChan =>
    if s.pc = CloserPC.closeChan then
      some { s with chanClosed := true, pc := CloserPC.lenCheck }
    else none
  | .lenCheck =>
    if s.pc = CloserPC.lenCheck then
      some { s with pc := if s.chan = [] then CloserPC.final else CloserPC.drain }
    else none
  | .drainPop =>
    match s.pc, s.closerHeld, s.chan with
    | CloserPC.drain, none, r :: rest => some { s with chan := rest, closerHeld := some r }
    | _, _, _ => none
  | .drainWrite =>
    match s.pc, s.closerHeld with
    | CloserPC.drain, some r =>
      some { s with closerHeld := none, events := s.events ++ [Ev.write r] }
    | _, _ => none
  | .drainExit =>
    match s.pc, s.closerHeld, s.chan with
    | CloserPC.drain, none, [] => some { s with pc := CloserPC.final }
    | _, _, _ => none
  | .sinkClose =>
    if s.pc = CloserPC.final then
      some { s with pc := CloserPC.done, events := s.events ++ [Ev.closeSink] }
    else none

/-- Run a sequence of interleaved actions; `none` if any is not enabled. -/
def runTrace (s : CState) : List Act → Option CState
  | [] => some s
  | a :: as =>
    match step s a with
    | some s' => runTrace s' as
    | none => none

/-- The state just before `Filter.Close` is called: the records `rs` were
accepted (enqueued) while the gate was Active, the consumer is at the top of
its loop, nothing has been delivered. -/
def initState (rs : List Nat) : CState :=
  { chan := rs
    chanClosed := false
    closing := false
    consHeld := none
    consDone := false
    pc := CloserPC.poll
    closerHeld := none
    events := [] }

/-- Both goroutines have returned: `run` saw the closed channel and `Close`
ran its deferred sink close. -/
def isComplete (s : CState) : Bool :=
  s.consDone && decide (s.pc = CloserPC.done)

/-- The interleaving that exhibits the close race, for two accepted records
`0` and `1`: the consumer receives record 0 and is preempted before its
`LogWrite`; the bounded poll of `Close` expires with record 1 still queued,
the channel is closed, the drain loop delivers record 1, the deferred sink
`Close` runs, and only then does the consumer's pending `LogWrite(0)`
execute. -/
def raceActs : List Act :=
  [Act.consPop, Act.pollExit, Act.setClosing, Act.closeChan, Act.lenCheck,
   Act.drainPop, Act.drainWrite, Act.drainExit, Act.sinkClose,
   Act.consWrite, Act.consStop]

/-- The single-record variant: the consumer holds the only record when the
length check sees an empty channel, so `Close` returns at once and the
deferred sink `Close` precedes the record's delivery. -/
def raceActsOne : List Act :=
  [Act.consPop, Act.pollExit, Act.setClosing, Act.closeChan, Act.lenCheck,
   Act.sinkClose, Act.consWrite, Act.consStop]

/-! Section: the structured text (JSON-shaped) encoding of a record.

The repository's encoder for this form (used by the socket sink before the
bytes reach `Logger.Json` via `json.Unmarshal`) lives in a source file that
is not part of src/, so the codec is modelled from the spec: a JSON object
with the four record fields mapped 1:1, strings quoted with backslash
escapes, numbers in decimal. -/

/-- Character of a single decimal digit (digits are always < 10 here). -/
def digitChar (d : Nat) : Char :=
  match d with
  | 0 => '0'
  | 1 => '1'
  | 2 => '2'
  | 3 => '3'
  | 4 => '4'
  | 5 => '5'
  | 6 => '6'
  | 7 => '7'
  | 8 => '8'
  | 9 => '9'
  | _ => '*'

/-- Decimal text of a natural number (big-endian digit characters). -/
def natChars (n : Nat) : List Char :=
  if n = 0 then ['0'] else ((Nat.digits 10 n).map digitChar).reverse

/-- Decimal text of an integer, with a leading minus sign when negative. -/
def intChars (i : Int) : List Char :=
  if i < 0 then '-' :: natChars i.natAbs else natChars i.toNat

/-- Escape one character for a JSON string: quote and backslash get a
backslash prefix. -/
def escChar (c : Char) : List Char :=
  if c = '"' ∨ c = '\\' then ['\\', c] else [c]

/-- Escape a whole string body. -/
def escapeStr (s : List Char) : List Char :=
  s.foldr (fun c acc => escChar c ++ acc) []

/-- A quoted, escaped JSON string. -/
def encodeJString (s : List Char) : List Char :=
  '"' :: escapeStr s ++ ['"']

/-- Literal text before the Level value (opening brace and quoted key). -/
def keyLevel : List Char := ['\x7b', '"', 'L', 'e', 'v', 'e', 'l', '"', ':']

/-- Literal text before the Created value. -/
def keyCreated : List Char := [',', '"', 'C', 'r', 'e', 'a', 't', 'e', 'd', '"', ':']

/-- Literal text before the Source value. -/
def keySource : List Char := [',', '"', 'S', 'o', 'u', 'r', 'c', 'e', '"', ':']

/-- Literal text before the Message value. -/
def keyMessage : List Char := [',', '"', 'M', 'e', 's', 's', 'a', 'g', 'e', '"', ':']

/-- Modelled from the spec: the structured-text form of a `LogRecord`
("Round-trippable to a structured text encoding"; the repository's encoder is
not among the src/ files).  A JSON object with the four fields in declaration
order. -/
def encodeRecord (r : LogRecord) : List Char :=
  keyLevel ++ intChars r.Level ++
  keyCreated ++ natChars r.Created ++
  keySource ++ encodeJString r.Source ++
  keyMessage ++ encodeJString r.Message ++ ['\x7d']

/-- Consume an expected literal text from the front of the input. -/
def expectLit : List Char → List Char → Option (List Char)
  | [], rest => some rest
  | _ :: _, [] => none
  | c :: cs, d :: rest => if c = d then expectLit cs rest else none

/-- Parse a run of decimal digits into its value; fails on no digits. -/
def parseNatTok (l : List Char) : Option (Nat × List Char) :=
  if l.takeWhile Char.isDigit = [] then none
  else some (decDigitsVal (l.takeWhile Char.isDigit), l.dropWhile Char.isDigit)

/-- Parse an optionally negated run of decimal digits. -/
def parseIntTok (l : List Char) : Option (Int × List Char) :=
  if l.head? = some '-' then (parseNatTok l.tail).map (fun p => (-(p.1 : Int), p.2))
  else (parseNatTok l).map (fun p => ((p.1 : Int), p.2))

/-- Read a JSON string body up to the closing quote, undoing backslash
escapes; returns the body and the input after the quote. -/
def unescapeStr : List Char → Option (List Char × List Char)
  | [] => none
  | c :: rest =>
    if c = '"' then some ([], rest)
    else if c = '\\' then
      match rest with
      | [] => none
      | d :: rest2 => (unescapeStr rest2).map (fun p => (d :: p.1, p.2))
    else (unescapeStr rest).map (fun p => (c :: p.1, p.2))

/-- Parse a quoted JSON string. -/
def parseJString (l : List Char) : Option (List Char × List Char) :=
  if l.head? = some '"' then unescapeStr l.tail else none

/-- Modelled from the spec: the ingestion-path decoder that reconstructs a
`LogRecord` from its structured-text form (the spec's "inter-process
ingestion path"; in the source this is the library call `json.Unmarshal`).
Accepts exactly the object shape `encodeRecord` produces. -/
def decodeRecord (l : List Char) : Option LogRecord := do
  let r1 ← expectLit keyLevel l
  let (lvl, r2) ← parseIntTok r1
  let r3 ← expectLit keyCreated r2
  let (cr, r4) ← parseNatTok r3
  let r5 ← expectLit keySource r4
  let (src, r6) ← parseJString r5
  let r7 ← expectLit keyMessage r6
  let (msg, r8) ← parseJString r7
  if r8 = ['\x7d'] then
    pure { Level := lvl, Created := cr, Source := src, Message := msg }
  else none

/-! Section: concrete example values used by witness theorems -/

/-- An example gate that accepts WARNING and above, Active, empty queue. -/
def fActiveEx : Filter := { Level := WARNING, recChan := [], closing := false }

/-- An example gate that is already closing. -/
def fClosedEx : Filter := { Level := DEBUG, recChan := [], closing := true }

/-- An example record at ERROR severity. -/
def rEx : LogRecord := { Level := ERROR, Created := 0, Source := [], Message := [] }

/-- An example one-gate logger. -/
def logEx : Logger := [("stdout", fActiveEx)]

/-- A decoder that always fails, with the error text Go's json package
produces for a truncated object. -/
def decodeFailEx : List Char → Except (List Char) LogRecord :=
  fun _ => Except.error "unexpected end of JSON input".data

/-- A decoder that always succeeds with a fixed record. -/
def decodeOkEx : List Char → Except (List Char) LogRecord :=
  fun _ => Except.ok { Level := ERROR, Created := 5, Source := "s".data, Message := "m".data }

/-- The spec's malformed ingestion scenario input. -/
def dataEx : List Char := "\x7b\"bad json\"".data

/-- An example file writer. -/
def fwEx : FileLogWriter := NewFileLogWriter ['x']

/-! Section: helper lemmas -/

/-- When `skip` holds at a record's severity, dispatching that record changes
no gate (every gate takes the `continue` branch). -/
theorem dispatch_of_skip (log : Logger) (r : LogRecord)
    (h : Logger.skip log r.Level = true) : Logger.dispatch log r = log := by
  induction log with
  | nil => rfl
  | cons kv rest ih =>
    simp only [Logger.skip, List.all_cons, Bool.and_eq_true, decide_eq_true_eq] at h
    have h1 : dispatchFilter kv.2 r = kv.2 := by
      simp [dispatchFilter, h.1]
    simp only [Logger.dispatch, List.map_cons] at ih ⊢
    rw [h1, ih (by simpa [Logger.skip] using h.2)]

/-- With the skip fast path being semantically transparent, `intLogf` is
exactly a dispatch of the constructed record. -/
theorem intLogf_eq_dispatch (log : Logger) (lvl : Int) (now : Nat) (src msg : List Char) :
    Logger.intLogf log lvl now src msg =
      Logger.dispatch log { Level := lvl, Created := now, Source := src, Message := msg } := by
  unfold Logger.intLogf
  split
  case isTrue h => exact (dispatch_of_skip log _ h).symm
  case isFalse h => rfl

/-- A second file-sink flush directly after a flush finds an empty buffer and
writes nothing. -/
theorem fileClose_idem (s : FileSinkState) :
    FileLogWriter.Close (FileLogWriter.Close s) = FileLogWriter.Close s := by
  cases h : s.w.iow with
  | none => simp [FileLogWriter.Close, h]
  | some b =>
    by_cases hb : b.length = 0
    · simp [FileLogWriter.Close, h, hb]
    · simp [FileLogWriter.Close, h, hb]

/-! Section: claim theorems -/

/-- Claim C1: the close protocol is claimed to deliver every accepted record
exactly once in FIFO order and to invoke the sink's Close exactly once, only
after the last delivery.  The code races: the consumer goroutine can hold a
received record while `Close`'s length check sees an empty channel.  Both
valid complete interleavings below violate the claim — with records [0, 1]
the sink observes `write 1, closeSink, write 0` (out of FIFO order and a
delivery after the sink's Close), and with the single record [0] it observes
`closeSink, write 0` (sink Close before any delivery). -/
theorem Filter.close_race :
    (runTrace (initState [0, 1]) raceActs).map (fun s => (s.events, isComplete s)) =
      some ([Ev.write 1, Ev.closeSink, Ev.write 0], true)
  ∧ (runTrace (initState [0]) raceActsOne).map (fun s => (s.events, isComplete s)) =
      some ([Ev.closeSink, Ev.write 0], true) := by
  decide

/-- Claim C2: a record is forwarded to a gate's queue iff the gate's
threshold is at or below the record's severity and the gate is not closing;
dispatch applies exactly this rule to every registered gate, and an emit
against a closing gate leaves it unchanged (and returns nothing — there is
no error channel in `WriteToChan`'s type). -/
theorem dispatch_forwards_iff (log : Logger) (f : Filter) (r : LogRecord) :
    Logger.dispatch log r = List.map (fun kv => (kv.1, dispatchFilter kv.2 r)) log
  ∧ dispatchFilter f r =
      (if f.Level ≤ r.Level ∧ f.closing = false then { f with recChan := f.recChan ++ [r] }
       else f)
  ∧ ((dispatchFilter f r).recChan = f.recChan ++ [r] ↔
      (f.Level ≤ r.Level ∧ f.closing = false)) := by
  have heq : dispatchFilter f r =
      (if f.Level ≤ r.Level ∧ f.closing = false then { f with recChan := f.recChan ++ [r] }
       else f) := by
    unfold dispatchFilter Filter.WriteToChan
    by_cases hlt : r.Level < f.Level
    · rw [if_pos hlt, if_neg (by rintro ⟨hle, -⟩; omega)]
    · rw [if_neg hlt]
      by_cases hc : f.closing = true
      · rw [if_pos hc, if_neg (by rintro ⟨-, hfc⟩; rw [hc] at hfc; cases hfc)]
      · rw [if_neg hc, if_pos ⟨by omega, by simpa using hc⟩]
  refine ⟨rfl, heq, ?_⟩
  rw [heq]
  split
  case isTrue h => simpa using h
  case isFalse h => simp [h]

/-- Witness for C2: an Active WARNING gate enqueues an ERROR record, a
closing gate drops it unchanged. -/
theorem dispatch_forwards_iff_w :
    (dispatchFilter fActiveEx rEx).recChan = fActiveEx.recChan ++ [rEx]
  ∧ dispatchFilter fClosedEx rEx = fClosedEx :=
  ⟨(dispatch_forwards_iff [] fActiveEx rEx).2.2.mpr (by decide),
   ((dispatch_forwards_iff [] fClosedEx rEx).2.1).trans (by decide)⟩

/-- Claim C4: the claim says every out-of-range level renders as "UNKNOWN"
without failing, but the guard `l < 0 || int(l) > len(levelStrings)` is off
by one: `l = 6` reaches `levelStrings[6]` and panics (`none` here), while
other out-of-range values do return "UNKNOWN" and 0..5 return the canonical
four-character names. -/
theorem levelString_cases :
    Level.string 6 = none
  ∧ Level.string (-1) = some "UNKNOWN"
  ∧ Level.string 7 = some "UNKNOWN"
  ∧ Level.string 0 = some "DEBG"
  ∧ Level.string 1 = some "TRAC"
  ∧ Level.string 2 = some "INFO"
  ∧ Level.string 3 = some "WARN"
  ∧ Level.string 4 = some "EROR"
  ∧ Level.string 5 = some "CRIT" := by
  decide

/-- Claim C5: when decoding fails, `Json` neither fails nor reports an error
to its caller (its result is just the logger state); it dispatches exactly
one WARNING record whose message is literally
`"Err: " ++ error text ++ " - " ++ raw payload`; and on success it applies
the usual skip/dispatch rule at the decoded severity. -/
theorem json_decode_handling (decode : List Char → Except (List Char) LogRecord)
    (log : Logger) (now : Nat) (src data : List Char) :
    (∀ e, decode data = Except.error e →
      Logger.Json decode log now src data =
        Logger.dispatch log
          { Level := WARNING, Created := now, Source := src
            Message := errPre ++ e ++ errSep ++ data })
  ∧ (∀ r, decode data = Except.ok r →
      Logger.Json decode log now src data =
        (if Logger.skip log r.Level then log else Logger.dispatch log r)) := by
  constructor
  · intro e he
    simp [Logger.Json, he, intLogf_eq_dispatch]
  · intro r hr
    simp [Logger.Json, hr]

/-- Witness for C5: the spec's malformed-input scenario and a successful
decode, at concrete values. -/
theorem json_decode_handling_w :
    Logger.Json decodeFailEx logEx 0 [] dataEx =
      Logger.dispatch logEx
        { Level := WARNING, Created := 0, Source := []
          Message := errPre ++ "unexpected end of JSON input".data ++ errSep ++ dataEx }
  ∧ Logger.Json decodeOkEx logEx 0 [] dataEx =
      (if Logger.skip logEx ERROR then logEx
       else Logger.dispatch logEx
         { Level := ERROR, Created := 5, Source := "s".data, Message := "m".data }) :=
  ⟨(json_decode_handling decodeFailEx logEx 0 [] dataEx).1 _ rfl,
   (json_decode_handling decodeOkEx logEx 0 [] dataEx).2 _ rfl⟩

/-- Claim C6: warn/error/critical emit a record at their severity (the skip
fast path is transparent: the result equals a plain dispatch of that record)
and return a non-nil error (`some`) carrying exactly the formatted message,
regardless of the gates' thresholds. -/
theorem warn_error_critical_emit (log : Logger) (now : Nat) (src msg : List Char) :
    Logger.warn log now src msg =
      (Logger.dispatch log { Level := WARNING, Created := now, Source := src, Message := msg },
       some msg)
  ∧ Logger.error log now src msg =
      (Logger.dispatch log { Level := ERROR, Created := now, Source := src, Message := msg },
       some msg)
  ∧ Logger.critical log now src msg =
      (Logger.dispatch log { Level := CRITICAL, Created := now, Source := src, Message := msg },
       some msg) := by
  refine ⟨?_, ?_, ?_⟩ <;>
    simp [Logger.warn, Logger.error, Logger.critical, intLogf_eq_dispatch]

/-- Claim C7: Flush is idempotent and state-preserving at the gate: it never
changes the gate (in particular never sets `closing` and never releases the
sink), and a second Flush with no intervening writes is a no-op on the sink
state — the first flush emptied the buffer, so no duplicate file write
occurs. -/
theorem flush_idempotent (f : Filter) (s : FileSinkState) :
    (Filter.Flush f s).1 = f
  ∧ Filter.Flush f (Filter.Flush f s).2 = (f, (Filter.Flush f s).2) := by
  by_cases hc : f.closing
  · simp [Filter.Flush, hc]
  · simp [Filter.Flush, hc, FileLogWriter.Flush, fileClose_idem]

/-- Atoi model on a nonempty all-digit string: no sign branch fires and the
decimal value is returned. -/
theorem goAtoi_digits (ds : List Char) (hne : ds ≠ []) (hdig : ds.all Char.isDigit = true) :
    goAtoi ds = (decDigitsVal ds : Int) := by
  cases ds with
  | nil => exact absurd rfl hne
  | cons d t =>
    simp only [List.all_cons, Bool.and_eq_true] at hdig
    have hd1 : ¬ d = '-' := fun h => absurd (h ▸ hdig.1) (by decide)
    have hd2 : ¬ d = '+' := fun h => absurd (h ▸ hdig.1) (by decide)
    have hstr : isDigitStr (d :: t) = true := by
      unfold isDigitStr
      simp only [List.isEmpty_cons, Bool.not_false, Bool.true_and, List.all_cons,
        Bool.and_eq_true]
      exact ⟨hdig.1, hdig.2⟩
    simp only [goAtoi, List.head?_cons, Option.some.injEq]
    rw [if_neg hd1, if_neg hd2, if_pos hstr]

/-- Appending a suffix byte to a nonempty numeric part makes the string
longer than one byte. -/
theorem length_concat_one (ds : List Char) (c : Char) (hne : ds ≠ []) :
    1 < (ds ++ [c]).length := by
  cases ds with
  | nil => exact absurd rfl hne
  | cons a t => simp [List.length_append]

/-- Suffix analysis for a trailing K/k: multiplier `mult`, suffix stripped. -/
theorem strToNumSplit_K (ds : List Char) (c : Char) (mult : Int) (hne : ds ≠ [])
    (hc : c = 'K' ∨ c = 'k') : strToNumSplit (ds ++ [c]) mult = (ds, mult) := by
  unfold strToNumSplit
  rw [if_pos (length_concat_one ds c hne), List.getLast?_concat]
  rcases hc with rfl | rfl <;>
    rw [if_neg (by decide), if_neg (by decide), if_pos (by decide), List.dropLast_concat]

/-- Suffix analysis for a trailing M/m: multiplier `mult * mult`. -/
theorem strToNumSplit_M (ds : List Char) (c : Char) (mult : Int) (hne : ds ≠ [])
    (hc : c = 'M' ∨ c = 'm') : strToNumSplit (ds ++ [c]) mult = (ds, mult * mult) := by
  unfold strToNumSplit
  rw [if_pos (length_concat_one ds c hne), List.getLast?_concat]
  rcases hc with rfl | rfl <;>
    rw [if_neg (by decide), if_pos (by decide), List.dropLast_concat]

/-- Suffix analysis for a trailing G/g: multiplier `mult * mult * mult`. -/
theorem strToNumSplit_G (ds : List Char) (c : Char) (mult : Int) (hne : ds ≠ [])
    (hc : c = 'G' ∨ c = 'g') : strToNumSplit (ds ++ [c]) mult = (ds, mult * mult * mult) := by
  unfold strToNumSplit
  rw [if_pos (length_concat_one ds c hne), List.getLast?_concat]
  rcases hc with rfl | rfl <;>
    rw [if_pos (by decide), List.dropLast_concat]

/-- Claim C8: a decimal number followed by K/M/G (upper or lower case) is
multiplied by 1024, 1024 squared, or 1024 cubed respectively when parsed with
base 1024. -/
theorem strToNumSuffix_kmg (ds : List Char) (c : Char)
    (hne : ds ≠ []) (hdig : ds.all Char.isDigit = true) :
    ((c = 'K' ∨ c = 'k') →
      strToNumSuffix (ds ++ [c]) 1024 = (decDigitsVal ds : Int) * 1024)
  ∧ ((c = 'M' ∨ c = 'm') →
      strToNumSuffix (ds ++ [c]) 1024 = (decDigitsVal ds : Int) * (1024 * 1024))
  ∧ ((c = 'G' ∨ c = 'g') →
      strToNumSuffix (ds ++ [c]) 1024 = (decDigitsVal ds : Int) * (1024 * 1024 * 1024)) := by
  have hAtoi := goAtoi_digits ds hne hdig
  refine ⟨fun hc => ?_, fun hc => ?_, fun hc => ?_⟩
  · rw [strToNumSuffix, strToNumSplit_K ds c 1024 hne hc, hAtoi]
  · rw [strToNumSuffix, strToNumSplit_M ds c 1024 hne hc, hAtoi]
  · rw [strToNumSuffix, strToNumSplit_G ds c 1024 hne hc, hAtoi]

/-- Witness for C8: the spec's two scenario values, bufsize "1K" and "2M" at
base 1024. -/
theorem strToNumSuffix_kmg_w :
    strToNumSuffix ['1', 'K'] 1024 = 1024
  ∧ strToNumSuffix ['2', 'M'] 1024 = 2 * (1024 * 1024) :=
  ⟨((strToNumSuffix_kmg ['1'] 'K' (by decide) (by decide)).1 (Or.inl rfl)).trans (by decide),
   ((strToNumSuffix_kmg ['2'] 'M' (by decide) (by decide)).2.1 (Or.inl rfl)).trans (by decide)⟩

/-- Without a "bufsize" property the accumulated bufsize stays at its zero
initial value. -/
theorem bufsizeOfProps_absent (props : List (String × List Char))
    (h : ∀ p ∈ props, p.1 ≠ "bufsize") : bufsizeOfProps props = 0 := by
  induction props with
  | nil => rfl
  | cons p rest ih =>
    simp only [bufsizeOfProps, List.foldl_cons] at ih ⊢
    rw [if_neg (h p (List.mem_cons_self p rest))]
    exact ih (fun q hq => h q (List.mem_cons_of_mem p hq))

/-- Claim C10: a bufsize that resolves to 0 — the property is absent, is the
string "0", or its numeric part fails to parse (the discarded Atoi error
leaves 0) — makes `SetBufSize` install the 4 MiB default, while any nonzero
value is installed exactly. -/
theorem setBufSize_zero_default (c : FileLogWriter) (n : Int)
    (props : List (String × List Char)) :
    (FileLogWriter.SetBufSize c 0).bufsize = 4 * 1024 * 1024
  ∧ (n ≠ 0 → (FileLogWriter.SetBufSize c n).bufsize = n)
  ∧ ((∀ p ∈ props, p.1 ≠ "bufsize") → bufsizeOfProps props = 0)
  ∧ strToNumSuffix ['0'] 1024 = 0
  ∧ (∀ (str : List Char) (mult : Int),
      goAtoi (strToNumSplit str mult).1 = 0 → strToNumSuffix str mult = 0) := by
  refine ⟨?_, ?_, fun h => bufsizeOfProps_absent props h, by decide, ?_⟩
  · simp [FileLogWriter.SetBufSize, BUFFERSIZE]
  · intro h
    simp [FileLogWriter.SetBufSize, h]
  · intro str mult h
    unfold strToNumSuffix
    rw [h, zero_mul]

/-- Witness for C10: a nonzero size installs exactly, a bufsize-free property
list accumulates 0, and a non-numeric bufsize string parses to 0. -/
theorem setBufSize_zero_default_w :
    (FileLogWriter.SetBufSize fwEx 7).bufsize = 7
  ∧ bufsizeOfProps [("format", [])] = 0
  ∧ strToNumSuffix ['a', 'b', 'c'] 1024 = 0 :=
  ⟨(setBufSize_zero_default fwEx 7 []).2.1 (by decide),
   (setBufSize_zero_default fwEx 7 [("format", [])]).2.2.1 (by decide),
   (setBufSize_zero_default fwEx 7 []).2.2.2.2 ['a', 'b', 'c'] 1024 (by decide)⟩

/-- While cumulative appended bytes stay at or below the threshold, no
rotation fires: the buffer just accumulates and no file is written. -/
theorem writeAll_no_rotate (ts : List (List Char)) :
    ∀ (s : FileSinkState) (b : List Char), s.w.iow = some b →
      (b.length : Int) + ((concatAll ts).length : Int) ≤ s.w.bufsize →
      writeAll s ts = { w := { s.w with iow := some (b ++ concatAll ts) }, files := s.files } := by
  induction ts with
  | nil =>
    intro s b hb _
    simp only [writeAll, List.foldl_nil, concatAll, List.foldr_nil, List.append_nil]
    cases s with
    | mk w files =>
      cases w
      simp_all
  | cons t rest ih =>
    intro s b hb hlen
    have hcat : concatAll (t :: rest) = t ++ concatAll rest := rfl
    rw [hcat] at hlen
    simp only [List.length_append] at hlen
    have hlt : ¬ (s.w.bufsize < ((b ++ t).length : Int)) := by
      simp only [List.length_append]
      push_cast at hlen ⊢
      omega
    have hstep : FileLogWriter.LogWrite s t =
        { w := { s.w with iow := some (b ++ t) }, files := s.files } := by
      simp only [FileLogWriter.LogWrite, hb]
      rw [if_neg hlt]
    simp only [writeAll, List.foldl_cons] at ih ⊢
    rw [hstep, ih { w := { s.w with iow := some (b ++ t) }, files := s.files } (b ++ t) rfl
      (by simp only [List.length_append]; push_cast at hlen ⊢; omega)]
    simp [hcat, List.append_assoc]

/-- A first write against a nil buffer behaves exactly like one against a
freshly allocated empty buffer (part_000 lines 128-130). -/
theorem writeAll_alloc (ts : List (List Char)) (s : FileSinkState) (h : s.w.iow = none)
    (hne : ts ≠ []) :
    writeAll s ts = writeAll { w := { s.w with iow := some [] }, files := s.files } ts := by
  cases ts with
  | nil => exact absurd rfl hne
  | cons t rest =>
    simp only [writeAll, List.foldl_cons]
    congr 1
    simp only [FileLogWriter.LogWrite, h]

/-- Claim C3: with buffer threshold T, writing `pre` (cumulative at most T),
then the chunk `t` that first pushes the total past T, then `post` (again at
most T) produces exactly one rotated file, containing precisely everything
appended up to and including the crossing chunk, and the buffer restarts
fresh with the post-threshold content. -/
theorem fileRotation (fname : List Char) (T : Int) (pre : List (List Char)) (t : List Char)
    (post : List (List Char))
    (h1 : ((concatAll pre).length : Int) ≤ T)
    (h2 : T < ((concatAll pre).length : Int) + (t.length : Int))
    (h3 : ((concatAll post).length : Int) ≤ T) :
    writeAll { w := { NewFileLogWriter fname with bufsize := T }, files := [] }
        (pre ++ t :: post) =
      { w := { NewFileLogWriter fname with bufsize := T, iow := some (concatAll post) },
        files := [concatAll pre ++ t] } := by
  have hrot : FileLogWriter.LogWrite
      { w := { NewFileLogWriter fname with bufsize := T, iow := some (concatAll pre) },
        files := [] } t =
      { w := { NewFileLogWriter fname with bufsize := T, iow := some [] },
        files := [concatAll pre ++ t] } := by
    simp only [FileLogWriter.LogWrite]
    rw [if_pos (by simp only [List.length_append]; push_cast; omega)]
    simp
  have hpost : writeAll
      { w := { NewFileLogWriter fname with bufsize := T, iow := some [] },
        files := [concatAll pre ++ t] } post =
      { w := { NewFileLogWriter fname with bufsize := T, iow := some (concatAll post) },
        files := [concatAll pre ++ t] } := by
    rw [writeAll_no_rotate post _ [] rfl (by simpa using h3)]
    simp
  cases hp : pre with
  | nil =>
    have hcat : concatAll ([] : List (List Char)) = [] := rfl
    simp only [List.nil_append, writeAll, List.foldl_cons]
    rw [show FileLogWriter.LogWrite
        { w := { NewFileLogWriter fname with bufsize := T }, files := [] } t =
        FileLogWriter.LogWrite
        { w := { NewFileLogWriter fname with bufsize := T, iow := some [] }, files := [] } t
      from rfl]
    have := hrot
    rw [hp] at this
    simp only [hcat, List.nil_append] at this
    rw [this]
    have := hpost
    rw [hp] at this
    simp only [hcat, List.nil_append] at this
    exact this
  | cons p ps =>
    rw [← hp]
    have hprene : pre ≠ [] := by rw [hp]; simp
    rw [writeAll, List.foldl_append, ← writeAll, ← writeAll]
    rw [writeAll_alloc pre _ rfl hprene,
      writeAll_no_rotate pre _ [] rfl (by simpa using h1)]
    simp only [List.nil_append]
    rw [writeAll, List.foldl_cons, ← writeAll, hrot, hpost]

/-- Witness for C3: threshold 3, writes "ab" (2 bytes, buffered), "cd"
(crosses the threshold at 4 bytes, rotating the whole buffer out), then "e"
(fresh buffer): exactly one file, containing "abcd", and buffer "e". -/
theorem fileRotation_w :
    writeAll { w := { NewFileLogWriter ['x'] with bufsize := 3 }, files := [] }
        [['a', 'b'], ['c', 'd'], ['e']] =
      { w := { NewFileLogWriter ['x'] with bufsize := 3, iow := some ['e'] },
        files := [['a', 'b', 'c', 'd']] } := by
  have h := fileRotation ['x'] 3 [['a', 'b']] ['c', 'd'] [['e']]
    (by decide) (by decide) (by decide)
  exact h.trans (by decide)

/-- Every digit below ten maps to a digit character whose value maps back. -/
theorem digitChar_lt10 :
    ∀ d : Nat, d < 10 → (digitChar d).isDigit = true ∧ (digitChar d).toNat - 48 = d := by
  decide

/-- All characters of a printed natural number are digits. -/
theorem natChars_all_digits (n : Nat) : ∀ c ∈ natChars n, c.isDigit = true := by
  intro c hc
  unfold natChars at hc
  split at hc
  · simp only [List.mem_singleton] at hc
    subst hc
    decide
  · simp only [List.mem_reverse, List.mem_map] at hc
    obtain ⟨d, hd, rfl⟩ := hc
    exact (digitChar_lt10 d (Nat.digits_lt_base (by norm_num) hd)).1

/-- A printed natural number is never the empty string. -/
theorem natChars_ne_nil (n : Nat) : natChars n ≠ [] := by
  unfold natChars
  split
  · simp
  · simp only [ne_eq, List.reverse_eq_nil_iff, List.map_eq_nil_iff]
    exact Nat.digits_ne_nil_iff_ne_zero.mpr (by assumption)

/-- Printing then revaluing a natural number is the identity. -/
theorem decDigitsVal_natChars (n : Nat) : decDigitsVal (natChars n) = n := by
  unfold natChars
  split
  case isTrue h => subst h; decide
  case isFalse h =>
    unfold decDigitsVal
    rw [List.foldl_reverse, List.foldr_map]
    have key : ∀ l : List Nat, (∀ d ∈ l, d < 10) →
        l.foldr (fun x y => 10 * y + ((digitChar x).toNat - 48)) 0 = Nat.ofDigits 10 l := by
      intro l hl
      induction l with
      | nil => simp [Nat.ofDigits]
      | cons d rest ihl =>
        simp only [List.foldr_cons, Nat.ofDigits_cons]
        rw [ihl (fun x hx => hl x (List.mem_cons_of_mem _ hx)),
          (digitChar_lt10 d (hl d (List.mem_cons_self _ _))).2]
        omega
    rw [key _ (fun d hd => Nat.digits_lt_base (by norm_num) hd), Nat.ofDigits_digits]

/-- takeWhile runs past a block that satisfies the predicate throughout. -/
theorem takeWhile_append_all (p : Char → Bool) (l r : List Char)
    (h : ∀ c ∈ l, p c = true) : (l ++ r).takeWhile p = l ++ r.takeWhile p := by
  induction l with
  | nil => simp
  | cons c t ih =>
    simp only [List.cons_append, List.takeWhile_cons, h c (List.mem_cons_self _ _), if_true]
    rw [ih (fun x hx => h x (List.mem_cons_of_mem _ hx))]

/-- dropWhile runs past a block that satisfies the predicate throughout. -/
theorem dropWhile_append_all (p : Char → Bool) (l r : List Char)
    (h : ∀ c ∈ l, p c = true) : (l ++ r).dropWhile p = r.dropWhile p := by
  induction l with
  | nil => simp
  | cons c t ih =>
    simp only [List.cons_append, List.dropWhile_cons, h c (List.mem_cons_self _ _), if_true]
    exact ih (fun x hx => h x (List.mem_cons_of_mem _ hx))

/-- Number parsing consumes exactly a printed natural number when the next
character is not a digit. -/
theorem parseNatTok_natChars (n : Nat) (r' : List Char) (c : Char) (rest : List Char)
    (hr : r' = c :: rest) (hc : c.isDigit = false) :
    parseNatTok (natChars n ++ r') = some (n, r') := by
  subst hr
  unfold parseNatTok
  rw [takeWhile_append_all _ _ _ (natChars_all_digits n),
    dropWhile_append_all _ _ _ (natChars_all_digits n)]
  simp only [List.takeWhile_cons, List.dropWhile_cons, hc, Bool.false_eq_true, if_false,
    List.append_nil]
  rw [if_neg (natChars_ne_nil n), decDigitsVal_natChars]

/-- Integer parsing consumes exactly a printed integer when the next
character is not a digit. -/
theorem parseIntTok_intChars (i : Int) (r' : List Char) (c : Char) (rest : List Char)
    (hr : r' = c :: rest) (hc : c.isDigit = false) :
    parseIntTok (intChars i ++ r') = some (i, r') := by
  unfold intChars
  split
  case isTrue hi =>
    simp only [List.cons_append]
    unfold parseIntTok
    rw [if_pos (by simp)]
    simp only [List.tail_cons]
    rw [parseNatTok_natChars i.natAbs r' c rest hr hc]
    simp only [Option.map_some', Option.some.injEq, Prod.mk.injEq]
    exact ⟨by omega, trivial⟩
  case isFalse hi =>
    obtain ⟨d, t, hd⟩ : ∃ d t, natChars i.toNat = d :: t := by
      cases hnc : natChars i.toNat with
      | nil => exact absurd hnc (natChars_ne_nil _)
      | cons d t => exact ⟨d, t, rfl⟩
    have hdd : d.isDigit = true := natChars_all_digits i.toNat d (by rw [hd]; exact List.mem_cons_self _ _)
    have hdm : ¬ d = '-' := fun h => absurd (h ▸ hdd) (by decide)
    unfold parseIntTok
    rw [hd, List.cons_append, List.head?_cons,
      if_neg (by simp only [Option.some.injEq]; exact hdm), ← List.cons_append, ← hd,
      parseNatTok_natChars i.toNat r' c rest hr hc]
    simp only [Option.map_some', Option.some.injEq, Prod.mk.injEq]
    exact ⟨by omega, trivial⟩

/-- One-step unfolding of the string-body reader. -/
theorem unescapeStr_cons (c : Char) (l : List Char) :
    unescapeStr (c :: l) =
      (if c = '"' then some ([], l)
       else if c = '\\' then
         match l with
         | [] => none
         | d :: rest2 => (unescapeStr rest2).map (fun p => (d :: p.1, p.2))
       else (unescapeStr l).map (fun p => (c :: p.1, p.2))) := by
  rw [unescapeStr.eq_def]

/-- Unescaping inverts escaping, up to the closing quote. -/
theorem unescapeStr_escapeStr (s rest : List Char) :
    unescapeStr (escapeStr s ++ '"' :: rest) = some (s, rest) := by
  induction s with
  | nil =>
    have he : escapeStr [] = [] := rfl
    rw [he, List.nil_append, unescapeStr_cons, if_pos rfl]
  | cons c t ih =>
    by_cases hc : c = '"' ∨ c = '\\'
    · have he : escapeStr (c :: t) = '\\' :: c :: escapeStr t := by
        simp [escapeStr, escChar, hc]
      rw [he]
      simp only [List.cons_append]
      rw [unescapeStr_cons, if_neg (by decide), if_pos rfl]
      simp [ih]
    · push_neg at hc
      have he : escapeStr (c :: t) = c :: escapeStr t := by
        simp [escapeStr, escChar, hc.1, hc.2]
      rw [he]
      simp only [List.cons_append]
      rw [unescapeStr_cons, if_neg hc.1, if_neg hc.2]
      simp [ih]

/-- String parsing inverts string encoding, whatever follows. -/
theorem parseJString_encodeJString (s rest : List Char) :
    parseJString (encodeJString s ++ rest) = some (s, rest) := by
  unfold parseJString encodeJString
  simp only [List.cons_append, List.head?_cons, List.tail_cons, Option.some.injEq,
    eq_self_iff_true, if_true]
  rw [List.append_assoc]
  have hsing : ['"'] ++ rest = '"' :: rest := rfl
  rw [hsing]
  exact unescapeStr_escapeStr s rest

/-- Literal consumption succeeds on exactly that literal prefix. -/
theorem expectLit_app (p rest : List Char) : expectLit p (p ++ rest) = some rest := by
  induction p with
  | nil => rfl
  | cons c t ih => simp [expectLit, ih]

/-- The integer field parser consumes a printed level right before the
Created key. -/
theorem parseIntTok_keyCreated (i : Int) (X : List Char) :
    parseIntTok (intChars i ++ (keyCreated ++ X)) = some (i, keyCreated ++ X) :=
  parseIntTok_intChars i (keyCreated ++ X) ',' ("\"Created\":".data ++ X) rfl (by decide)

/-- The natural field parser consumes a printed timestamp right before the
Source key. -/
theorem parseNatTok_keySource (n : Nat) (X : List Char) :
    parseNatTok (natChars n ++ (keySource ++ X)) = some (n, keySource ++ X) :=
  parseNatTok_natChars n (keySource ++ X) ',' ("\"Source\":".data ++ X) rfl (by decide)

/-- Claim C9: decoding the structured text form of any record through the
ingestion path recovers the record exactly — equal severity, timestamp,
source and message. -/
theorem encode_decode_roundtrip (r : LogRecord) :
    decodeRecord (encodeRecord r) = some r := by
  obtain ⟨lvl, cr, src, msg⟩ := r
  unfold encodeRecord decodeRecord
  simp only [List.append_assoc, expectLit_app, Option.bind_eq_bind, Option.some_bind,
    parseIntTok_keyCreated, parseNatTok_keySource, parseJString_encodeJString]
  rfl

end Log4go
